import Mathlib

/-!
Shallow embedding of the GuardianExec job-lifecycle orchestrator:
the DigitalOcean control plane (`pkg/digitalocean/digitalocean.go`) and
the remote execution agent (`cmd/cloudexec/user_data.sh.tmpl`).

Provider calls (godo API, `time.Parse`, the metadata endpoint, s3cmd, jq)
are modelled as explicit inputs: each embedded function receives the
results the external world would return and computes exactly what the
source computes with them, recording the provider-mutating calls it
makes as an effect trace.
-/

namespace GuardianExec

/-- `strings.HasPrefix` of Go and the `"Owner:"*` glob of bash,
structurally on the character list so that concrete instances reduce. -/
def hasPrefixStr (pre s : String) : Bool := pre.data.isPrefixOf s.data

/-- The bash `${tag#"Owner:"}` strip, as a character-count drop. -/
def dropStr (n : Nat) (s : String) : String := ⟨s.data.drop n⟩

/-! ## Data model: godo-side records (provider responses) -/

/-- An SSH key record as returned by `doClient.Keys.List`. -/
structure GodoKey where
  name : String
  fingerprint : String
  publicKey : String
deriving Repr, DecidableEq

/-- A snapshot record as returned by `doClient.Snapshots.ListDroplet`:
`Name`, `ID` and the `Created` timestamp string. -/
structure GodoSnapshot where
  name : String
  id : String
  created : String
deriving Repr, DecidableEq

/-- A droplet record as returned by `doClient.Droplets.Create/Get/ListByTag`.
`publicIPv4` models the result of the godo `PublicIPv4()` resolution
(`none` when no public address is available, which the code treats as an
error); `priceHourly` is kept abstract as an integer number of price units
since no claim depends on its arithmetic. -/
structure GodoDroplet where
  id : Int
  name : String
  created : String
  vcpus : Int
  disk : Int
  memory : Int
  priceHourly : Int
  publicIPv4 : Option String
  tags : List String
deriving Repr, DecidableEq

/-! ## Data model: cloudexec-side records (`digitalocean.go` lines 17-35) -/

/-- `type Size struct` from `digitalocean.go`. -/
structure Size where
  cpus : Int
  disk : Int
  memory : Int
  hourlyCost : Int
deriving Repr, DecidableEq

/-- `type Droplet struct` from `digitalocean.go`. -/
structure Droplet where
  name : String
  id : Int
  ip : String
  created : String
  size : Size
deriving Repr, DecidableEq

/-- `type Snapshot struct` from `digitalocean.go`. -/
structure Snapshot where
  name : String
  id : String
deriving Repr, DecidableEq

/-- `const cloudexecTag = "Purpose:cloudexec"`. -/
def cloudexecTag : String := "Purpose:cloudexec"

/-! ## Image selector: `GetLatestSnapshot` (`digitalocean.go` lines 319-372)

`time.Parse(timeLayout, snapshot.Created)` is modelled by an explicit
parse function `parse : String → Option Int` (`none` is a parse error,
`some t` the parsed instant); `.After` is strict `>` on the parsed
instants.  Pagination concatenates all pages into one listing, which is
what the page loop folds over. -/

/-- The update condition of the selection loop:
`latestSnapshot == nil || snapshotCreatedAt.After(latestCreatedAt)`. -/
def afterLatest (acc : Option (GodoSnapshot × Int)) (t : Int) : Bool :=
  match acc with
  | none => true
  | some (_, ct) => t > ct

/-- The selection loop of `GetLatestSnapshot`: parse each listed
snapshot timestamp (failure is fatal), keep the snapshot that has the
`cloudexec-` name prefix and the latest parsed creation time. -/
def snapshotScan (parse : String → Option Int) :
    Option (GodoSnapshot × Int) → List GodoSnapshot →
      Except String (Option (GodoSnapshot × Int))
  | acc, [] => Except.ok acc
  | acc, s :: rest =>
    match parse s.created with
    | none => Except.error "Failed to parse snapshot creation timestamp"
    | some t =>
      if afterLatest acc t && hasPrefixStr "cloudexec-" s.name then
        snapshotScan parse (some (s, t)) rest
      else
        snapshotScan parse acc rest

/-- The fallback image returned when no snapshot qualifies
(`digitalocean.go` lines 361-366). -/
def fallbackSnapshot : Snapshot := { name := "fallback", id := "ubuntu-20-04-x64" }

/-- `GetLatestSnapshot` over a full provider listing. -/
def GetLatestSnapshot (parse : String → Option Int) (snapshots : List GodoSnapshot) :
    Except String Snapshot :=
  match snapshotScan parse none snapshots with
  | Except.error e => Except.error e
  | Except.ok none => Except.ok fallbackSnapshot
  | Except.ok (some (s, _)) => Except.ok { name := s.name, id := s.id }

/-! ## Droplet listing: `GetAllDroplets` (`digitalocean.go` lines 249-304)

The provider input is the paginated response of
`Droplets.ListByTag(ctx, "Owner:<username>", opts)`: a list of pages.
The inner tag loop appends a droplet exactly when `cloudexecTag` occurs
among its tags, resolving its public address first; a missing address
aborts the whole call. -/

/-- Conversion performed at the append site of `GetAllDroplets`. -/
def dropletOfGodo (g : GodoDroplet) (ip : String) : Droplet :=
  { name := g.name
    id := g.id
    ip := ip
    created := g.created
    size := { cpus := g.vcpus, disk := g.disk, memory := g.memory,
              hourlyCost := g.priceHourly } }

/-- The per-page body of `GetAllDroplets`: scan each droplet of the page,
append it when it carries the cloudexec tag. -/
def collectDroplets (acc : List Droplet) : List GodoDroplet → Except String (List Droplet)
  | [] => Except.ok acc
  | g :: rest =>
    if cloudexecTag ∈ g.tags then
      match g.publicIPv4 with
      | none => Except.error "Failed to fetch droplet IP"
      | some ip => collectDroplets (acc ++ [dropletOfGodo g ip]) rest
    else
      collectDroplets acc rest

/-- The page loop of `GetAllDroplets`. -/
def collectPages (acc : List Droplet) : List (List GodoDroplet) → Except String (List Droplet)
  | [] => Except.ok acc
  | page :: rest =>
    match collectDroplets acc page with
    | Except.error e => Except.error e
    | Except.ok acc2 => collectPages acc2 rest

/-- `GetAllDroplets` over the pages returned by the owner-tag listing. -/
def GetAllDroplets (pages : List (List GodoDroplet)) : Except String (List Droplet) :=
  collectPages [] pages

/-! ## Droplet creation: `CreateDroplet` (`digitalocean.go` lines 124-216)

The external world is a `ProviderEnv` carrying the result each godo call
would return; `CreateDroplet` threads them exactly as the source does and
records every provider-mutating or provider-querying call it performs in
an effect trace. -/

/-- Results the provider returns to each call `CreateDroplet` can make. -/
structure ProviderEnv where
  /-- Result of `doClient.Keys.List` (one page of up to 200 keys). -/
  listKeys : Except String (List GodoKey)
  /-- Result of `doClient.Keys.Create`: the new key fingerprint. -/
  createKey : Except String String
  /-- Result of `doClient.Snapshots.ListDroplet` across all pages. -/
  snapshots : Except String (List GodoSnapshot)
  /-- `time.Parse(time.RFC3339, ·)`. -/
  parseTime : String → Option Int
  /-- Result of `doClient.Droplets.Create`. -/
  createDroplet : Except String GodoDroplet
  /-- Whether the create response links carry an action with `Rel == "create"`. -/
  createActionLink : Bool
  /-- Result of `util.WaitForActive` on that action. -/
  waitForActive : Except String Unit
  /-- Result of the `doClient.Droplets.Get` re-fetch after the wait. -/
  getDroplet : Except String GodoDroplet

/-- Provider calls performed by `CreateDroplet`, in order. -/
inductive Effect where
  | listKeysCall
  | createKeyCall (name : String) (publicKey : String)
  | createDropletCall (sshKeyFingerprint : String)
  | waitForActiveCall
  | getDropletCall
deriving Repr, DecidableEq

/-- `findSSHKeyOnDigitalOcean` (`digitalocean.go` lines 80-95): list the
keys, return the fingerprint and stored public key of the first one whose
name matches, an error when the list call fails or no name matches. -/
def findSSHKeyOnDigitalOcean (listResult : Except String (List GodoKey))
    (keyName : String) : Except String (String × String) :=
  match listResult with
  | Except.error e => Except.error ("Failed to list DigitalOcean SSH keys: " ++ e)
  | Except.ok keys =>
    match keys.find? (fun k => k.name == keyName) with
    | some k => Except.ok (k.fingerprint, k.publicKey)
    | none => Except.error ("SSH key with name " ++ keyName ++ " not found")

/-- `createSSHKeyOnDigitalOcean` (`digitalocean.go` lines 67-77). -/
def createSSHKeyOnDigitalOcean (createResult : Except String String) :
    Except String String :=
  match createResult with
  | Except.error e => Except.error ("Failed to create SSH key on DigitalOcean: " ++ e)
  | Except.ok fp => Except.ok fp

/-- The tail of `CreateDroplet` from the `doClient.Droplets.Create` call on
(`digitalocean.go` lines 180-215), given the resolved ssh key fingerprint.
When a create action link is present the source waits for it with
`_ = util.WaitForActive(...)` — the wait result is discarded — and then
re-fetches the droplet by id; without a link neither happens and the
create response is used directly. -/
def createDropletPhase (env : ProviderEnv) (fp : String) (effs : List Effect) :
    Except String Droplet × List Effect :=
  let effs := effs ++ [Effect.createDropletCall fp]
  match env.createDroplet with
  | Except.error e => (Except.error ("Failed to create droplet: " ++ e), effs)
  | Except.ok created =>
    let fetched :=
      if env.createActionLink then
        let effs := effs ++ [Effect.waitForActiveCall]
        match env.getDroplet with
        | Except.error e =>
          (Except.error ("Failed to get droplet by id: " ++ e), effs ++ [Effect.getDropletCall])
        | Except.ok d => (Except.ok d, effs ++ [Effect.getDropletCall])
      else
        (Except.ok created, effs)
    match fetched with
    | (Except.error e, effs) => (Except.error e, effs)
    | (Except.ok d, effs) =>
      match d.publicIPv4 with
      | none => (Except.error "Failed to get droplet IP", effs)
      | some ip => (Except.ok (dropletOfGodo d ip), effs)

/-- Lines 132-150 of `CreateDroplet`: resolve the ssh key under the
deterministic name `cloudexec-<username>`.  On a successful lookup the
stored material must equal the callers byte for byte (reuse on equality,
fatal mismatch otherwise); on any lookup error — the name being absent
but also a failed list call — a new key is registered. -/
def sshKeyPhase (env : ProviderEnv) (username publicKey : String) :
    Except String String × List Effect :=
  let keyName := "cloudexec-" ++ username
  let effs := [Effect.listKeysCall]
  match findSSHKeyOnDigitalOcean env.listKeys keyName with
  | Except.ok (fp, savedPublicKey) =>
    if publicKey ≠ savedPublicKey then
      (Except.error "Keys do not match! Consider removing your old key from DigitalOcean Security settings and re-running cloudexec launch.", effs)
    else
      (Except.ok fp, effs)
  | Except.error _ =>
    let effs := effs ++ [Effect.createKeyCall keyName publicKey]
    match createSSHKeyOnDigitalOcean env.createKey with
    | Except.error e =>
      (Except.error ("Failed to create SSH key on DigitalOcean: " ++ e), effs)
    | Except.ok fp => (Except.ok fp, effs)

/-- Lines 152-155 of `CreateDroplet`: resolve the boot image via
`GetLatestSnapshot`, whose own listing error is wrapped. -/
def snapshotPhase (env : ProviderEnv) : Except String Snapshot :=
  match env.snapshots with
  | Except.error e => Except.error ("Failed to list snapshots: " ++ e)
  | Except.ok snaps => GetLatestSnapshot env.parseTime snaps

/-- `CreateDroplet` (`digitalocean.go` lines 124-216): key phase, image
phase, then the create request. -/
def CreateDroplet (env : ProviderEnv) (username : String) (publicKey : String) :
    Except String Droplet × List Effect :=
  match sshKeyPhase env username publicKey with
  | (Except.error e, effs) => (Except.error e, effs)
  | (Except.ok fp, effs) =>
    match snapshotPhase env with
    | Except.error e => (Except.error ("Failed to get snapshot ID: " ++ e), effs)
    | Except.ok _snap => createDropletPhase env fp effs

/-! ## The execution agent (`cmd/cloudexec/user_data.sh.tmpl`)

The agent script is embedded as a trace-producing state machine.  The
shared state document mutation (`update_state`, lines 183-207) is the jq
program of line 200 over a document record; the monitoring loop
(lines 284-317) consumes a stream of per-iteration observations, one per
poll (`date "+%s"` and the contents of `/tmp/cloudexec-exit-code`). -/

/-- Scan of the metadata tags (`user_data.sh.tmpl` lines 66-77). -/
structure TagScan where
  cloudexec : Bool
  username : String
  jobId : String
deriving Repr, DecidableEq

/-- The tag loop: `Purpose:cloudexec` sets the flag, `Owner:` and `Job:`
prefixes set username and job id (later tags overriding earlier ones). -/
def scanTags (tags : List String) : TagScan :=
  tags.foldl
    (fun acc tag =>
      if tag == "Purpose:cloudexec" then { acc with cloudexec := true }
      else if hasPrefixStr "Owner:" tag then { acc with username := dropStr 6 tag }
      else if hasPrefixStr "Job:" tag then { acc with jobId := dropStr 4 tag }
      else acc)
    { cloudexec := false, username := "", jobId := "" }

/-- Environment variables baked into the rendered boot script. -/
structure AgentEnvVars where
  digitalOceanToken : String
  awsAccessKeyId : String
  awsSecretAccessKey : String
  awsDefaultRegion : String
deriving Repr, DecidableEq

/-- Outcome of the identity and credential gate
(`user_data.sh.tmpl` lines 62-108). -/
inductive GateResult where
  /-- `exit 1` of line 86: empty job id. -/
  | exitNoJobId
  /-- `exit 1` of line 98: missing provider token. -/
  | exitNoToken
  /-- `exit 1` of line 106: missing object-storage credential. -/
  | exitNoS3Creds
  /-- The script continues to job work.  `warnedNotCloudexec` records that
  the branch of lines 79-82 fired: the script prints
  "Not a CloudExec droplet, exiting..." but its `exit 1` is commented out
  in the source (line 81), so execution falls through. -/
  | proceed (warnedNotCloudexec : Bool) (bucket : String)
deriving Repr, DecidableEq

/-- The identity and credential gate of the agent.  Mirrors the source
order: tag scan, the cloudexec/owner check whose exit is commented out,
the job-id check (`exit 1`), bucket derivation, the provider-token check
(`exit 1`), the storage-credential check (`exit 1`). -/
def identityGate (tags : List String) (vars : AgentEnvVars) : GateResult :=
  let scan := scanTags tags
  let warned := scan.cloudexec == false || scan.username == ""
  if scan.jobId == "" then GateResult.exitNoJobId
  else if vars.digitalOceanToken == "" then GateResult.exitNoToken
  else if vars.awsAccessKeyId == "" || vars.awsSecretAccessKey == "" ||
      vars.awsDefaultRegion == "" then GateResult.exitNoS3Creds
  else GateResult.proceed warned ("cloudexec-" ++ scan.username)

/-! ### The shared state document and `update_state` -/

/-- One element of the `.jobs` array of `state/state.json`.  Fields the jq
program of line 200 never mentions are collected in `extra`. -/
structure JobRecord where
  id : Int
  status : String
  created_at : Int
  updated_at : Int
  completed_at : Option Int
  extra : List (String × String)
deriving Repr, DecidableEq

/-- The whole state document: the `.jobs` array plus any other top-level
fields, which the `.jobs |= map(...)` update leaves untouched. -/
structure StateDoc where
  jobs : List JobRecord
  rest : List (String × String)
deriving Repr, DecidableEq

/-- The per-record body of the jq filter of `update_state`
(`user_data.sh.tmpl` line 200): `if .id == $JOB_ID then .status = $s |
.updated_at = $t | (if $COMPLETED == "true" then .completed_at = $t
else . end) else . end`. -/
def updateJobRecord (jobId : Int) (newStatus : String) (updatedAt : Int)
    (completedFlag : Bool) (j : JobRecord) : JobRecord :=
  if j.id == jobId then
    let j1 := { j with status := newStatus, updated_at := updatedAt }
    if completedFlag then { j1 with completed_at := some updatedAt } else j1
  else j

/-- The jq filter of `update_state`: `.jobs |= map(...)` over the whole
document.  `completedFlag` is the value of the `COMPLETED` shell flag at
call time. -/
def update_state (doc : StateDoc) (jobId : Int) (newStatus : String)
    (updatedAt : Int) (completedFlag : Bool) : StateDoc :=
  { doc with jobs := doc.jobs.map (updateJobRecord jobId newStatus updatedAt completedFlag) }

/-! ### The monitoring loop and the cleanup handler -/

/-- What one iteration of the monitoring loop observes: the current time
(`date "+%s"`) and the contents of `/tmp/cloudexec-exit-code` (`none`
while the file is absent or empty). -/
structure Obs where
  time : Int
  exitCode : Option Nat
deriving Repr, DecidableEq

/-- Which call site of `update_state` produced a state write. -/
inductive Origin where
  /-- `update_state "running"` at line 241. -/
  | initialRunning
  /-- The exit-code arm of the loop (lines 287-300), entered after
  `COMPLETED=true`. -/
  | exitArm
  /-- The timeout arm of the loop (lines 302-308), entered while
  `COMPLETED` and `TIMEDOUT` are still false. -/
  | timeoutArm
  /-- The `update_state "failed"` of `cleanup` (line 146). -/
  | cleanupArm
deriving Repr, DecidableEq

/-- Events of the agent trace.  `stateWrite` records the `update_state`
call: its origin, the status string, the value of the `COMPLETED` flag at
the call (which is what stamps `completed_at`), and the wall-clock time
written into `updated_at`. -/
inductive AgentEvent where
  | runSetup
  | downloadInput
  | stateWrite (origin : Origin) (status : String) (completedFlag : Bool) (t : Int)
  | uploadOutput
  | uploadLogs
  | cleanupRun
  | selfDelete (dropletId : String)
deriving Repr, DecidableEq

/-- The monitoring loop (`user_data.sh.tmpl` lines 284-317) over a stream
of observations.  Per iteration, in source order: a recorded exit code
sets `COMPLETED=true`, publishes `completed` when it is zero and `failed`
otherwise, and breaks; else a current time strictly past `end_time`
publishes `timedout` (with `COMPLETED` still false) and sets
`TIMEDOUT=true` and breaks; else a current time strictly past `next_sync`
uploads output and advances `next_sync` by the heartbeat.  An exhausted
stream models the loop being cut short from outside (signal or crash)
with both flags still false.  Returns the events and the final
(`COMPLETED`, `TIMEDOUT`) flags. -/
def monitorLoop (endTime : Int) (nextSync : Int) (heartbeat : Int) :
    List Obs → List AgentEvent × Bool × Bool
  | [] => ([], false, false)
  | o :: rest =>
    match o.exitCode with
    | some c =>
      ([AgentEvent.stateWrite Origin.exitArm
          (if c == 0 then "completed" else "failed") true o.time], true, false)
    | none =>
      if o.time > endTime then
        ([AgentEvent.stateWrite Origin.timeoutArm "timedout" false o.time], false, true)
      else if o.time > nextSync then
        let r := monitorLoop endTime (nextSync + heartbeat) heartbeat rest
        (AgentEvent.uploadOutput :: r.1, r.2)
      else
        monitorLoop endTime nextSync heartbeat rest

/-- The `cleanup` handler (`user_data.sh.tmpl` lines 143-181), given the
flag values when it fires: publish `failed` when neither `COMPLETED` nor
`TIMEDOUT` is set, upload output, upload the boot log, and issue the
self-delete of the instance id as the final action. -/
def cleanup (completed timedout : Bool) (t : Int) (dropletId : String) :
    List AgentEvent :=
  AgentEvent.cleanupRun ::
    (if completed == false && timedout == false then
      [AgentEvent.stateWrite Origin.cleanupArm "failed" false t]
    else []) ++
    [AgentEvent.uploadOutput, AgentEvent.uploadLogs, AgentEvent.selfDelete dropletId]

/-- The external circumstances of one agent run. -/
structure AgentRunEnv where
  tags : List String
  vars : AgentEnvVars
  /-- Whether `eval "$SETUP_COMMANDS"` succeeds (under `set -e` a failure
  exits the script). -/
  setupOk : Bool
  /-- Whether the input archive downloads and unzips as required
  (lines 219-231, fatal otherwise). -/
  inputOk : Bool
  /-- Time written by the `update_state "running"` call. -/
  runningTime : Int
  /-- `start_time` of line 269. -/
  startTime : Int
  /-- `TIMEOUT` seconds. -/
  timeout : Int
  /-- The observation stream of the monitoring loop. -/
  obs : List Obs
  /-- Time observed by the `update_state "failed"` inside `cleanup`. -/
  cleanupTime : Int
  /-- The instance id from the metadata endpoint (line 176). -/
  dropletId : String

/-- One full run of the agent after bootstrap: the gate (exits before the
trap is armed, so no cleanup), then — with the trap of line 210 armed —
setup, input download, the `running` state write, the monitoring loop
(`end_time = start_time + TIMEOUT`, first sync at `start_time + 60`,
heartbeat 60), and on every termination path the cleanup handler with the
flags as the loop left them.  Returns the trace and the final flags. -/
def agentRun (env : AgentRunEnv) : List AgentEvent × Bool × Bool :=
  match identityGate env.tags env.vars with
  | GateResult.proceed _ _ =>
    if env.setupOk = false then
      (AgentEvent.runSetup :: cleanup false false env.cleanupTime env.dropletId,
        false, false)
    else if env.inputOk = false then
      (AgentEvent.runSetup :: AgentEvent.downloadInput ::
        cleanup false false env.cleanupTime env.dropletId, false, false)
    else
      let r := monitorLoop (env.startTime + env.timeout) (env.startTime + 60) 60 env.obs
      (AgentEvent.runSetup :: AgentEvent.downloadInput ::
        AgentEvent.stateWrite Origin.initialRunning "running" false env.runningTime ::
        r.1 ++ cleanup r.2.1 r.2.2 env.cleanupTime env.dropletId,
        r.2)
  | _ => ([], false, false)

/-! ### Replaying the state writes of a trace on the shared document

Each `stateWrite` event of a trace is an `update_state` call; replaying
them on a document yields the document the bucket holds after the run. -/

/-- Replay the `update_state` calls a trace records on a document. -/
def applyWrites (jobId : Int) : StateDoc → List AgentEvent → StateDoc
  | doc, [] => doc
  | doc, AgentEvent.stateWrite _ s f t :: rest =>
    applyWrites jobId (update_state doc jobId s t f) rest
  | doc, _ :: rest => applyWrites jobId doc rest

/-- The time of a state write made with `COMPLETED` true, `none` for any
other event: exactly the writes that stamp `completed_at`. -/
def stampedTime : AgentEvent → Option Int
  | AgentEvent.stateWrite _ _ true t => some t
  | _ => none

/-- The `updated_at` instants of the writes made with `COMPLETED` true,
in trace order. -/
def stampedTimes (evs : List AgentEvent) : List Int :=
  evs.filterMap stampedTime

/-! ### Concrete instances used by witnesses and counterexamples -/

/-- Timestamp parser used on concrete inputs: decimal integers. -/
def sampleParse (s : String) : Option Int :=
  if s = "5" then some 5 else if s = "7" then some 7 else if s = "99" then some 99 else none

/-- A concrete snapshot listing with two prefixed and one foreign entry. -/
def sampleSnapshots : List GodoSnapshot :=
  [ { name := "cloudexec-a", id := "img-1", created := "5" },
    { name := "other", id := "img-2", created := "99" },
    { name := "cloudexec-b", id := "img-3", created := "7" } ]

/-- A provider droplet carrying the full tag triple. -/
def taggedGodoDroplet : GodoDroplet :=
  { id := 7, name := "cloudexec-alice-42", created := "2023-01-01T00:00:00Z",
    vcpus := 2, disk := 50, memory := 1024, priceHourly := 1,
    publicIPv4 := some "203.0.113.5",
    tags := ["Purpose:cloudexec", "Owner:alice", "Job:42"] }

/-- A provider droplet with a matching owner tag but no purpose tag. -/
def untaggedGodoDroplet : GodoDroplet :=
  { id := 8, name := "unrelated", created := "2023-01-01T00:00:00Z",
    vcpus := 1, disk := 25, memory := 512, priceHourly := 1,
    publicIPv4 := some "203.0.113.6",
    tags := ["Owner:alice"] }

/-- A page listing of the owner-tag query holding both droplets. -/
def samplePages : List (List GodoDroplet) := [[untaggedGodoDroplet, taggedGodoDroplet]]

/-- An environment where the ssh-key listing fails with a provider error
while every later call succeeds. -/
def envListFail : ProviderEnv :=
  { listKeys := Except.error "boom"
    createKey := Except.ok "fp-new"
    snapshots := Except.ok []
    parseTime := fun _ => none
    createDroplet := Except.ok taggedGodoDroplet
    createActionLink := false
    waitForActive := Except.ok ()
    getDroplet := Except.error "unused" }

/-- An environment where the wait on the create action fails while every
other call succeeds. -/
def envWaitFail : ProviderEnv :=
  { listKeys := Except.ok []
    createKey := Except.ok "fp-new"
    snapshots := Except.ok []
    parseTime := fun _ => none
    createDroplet := Except.ok taggedGodoDroplet
    createActionLink := true
    waitForActive := Except.error "create action failed"
    getDroplet := Except.ok taggedGodoDroplet }

/-- An environment whose key listing already holds the key
`cloudexec-alice` with public-key material `pk`. -/
def envKeyStored : ProviderEnv :=
  { listKeys := Except.ok [{ name := "cloudexec-alice", fingerprint := "fp-old", publicKey := "pk" }]
    createKey := Except.ok "fp-new"
    snapshots := Except.ok []
    parseTime := fun _ => none
    createDroplet := Except.ok taggedGodoDroplet
    createActionLink := true
    waitForActive := Except.ok ()
    getDroplet := Except.ok taggedGodoDroplet }

/-- Boot-script environment variables with every credential present. -/
def sampleVars : AgentEnvVars :=
  { digitalOceanToken := "token", awsAccessKeyId := "access",
    awsSecretAccessKey := "secret", awsDefaultRegion := "region" }

/-- An agent run on an instance whose tags lack `Purpose:cloudexec` but
carry a non-empty job tag; the workload exits with code 0. -/
def envMissingPurpose : AgentRunEnv :=
  { tags := ["Owner:alice", "Job:42"], vars := sampleVars,
    setupOk := true, inputOk := true, runningTime := 10, startTime := 11,
    timeout := 100, obs := [{ time := 20, exitCode := some 0 }],
    cleanupTime := 25, dropletId := "droplet-7" }

/-- An agent run cut short by a termination signal mid-run: the
observation stream ends before either race arm fires. -/
def envSignalled : AgentRunEnv :=
  { tags := ["Purpose:cloudexec", "Owner:alice", "Job:42"], vars := sampleVars,
    setupOk := true, inputOk := true, runningTime := 10, startTime := 11,
    timeout := 100, obs := [{ time := 20, exitCode := none }],
    cleanupTime := 25, dropletId := "droplet-7" }

/-- An agent run whose workload records exit code 0 on the second poll. -/
def envCompletes : AgentRunEnv :=
  { tags := ["Purpose:cloudexec", "Owner:alice", "Job:42"], vars := sampleVars,
    setupOk := true, inputOk := true, runningTime := 10, startTime := 11,
    timeout := 100, obs := [{ time := 20, exitCode := none }, { time := 21, exitCode := some 0 }],
    cleanupTime := 25, dropletId := "droplet-7" }

/-- A concrete state document with two job records and a foreign
top-level field. -/
def sampleDoc : StateDoc :=
  { jobs :=
      [ { id := 42, status := "running", created_at := 1, updated_at := 2,
          completed_at := none, extra := [("note", "keep")] },
        { id := 7, status := "completed", created_at := 0, updated_at := 3,
          completed_at := some 3, extra := [] } ]
    rest := [("schema", "v1")] }

/-! ## Theorems -/

/-- C1: the claim requires the agent to exit before any job work when the
`Purpose:cloudexec` tag is missing, but the `exit 1` of that branch is
commented out in the source (`user_data.sh.tmpl` line 81): with tags
`["Owner:alice", "Job:42"]` the gate only records the printed warning and
proceeds, and the run goes on to execute setup, download input, write the
state document and run the workload to completion. -/
theorem c1_agent_continues_without_purpose_tag :
    identityGate envMissingPurpose.tags envMissingPurpose.vars
        = GateResult.proceed true "cloudexec-alice" ∧
    agentRun envMissingPurpose =
      ([AgentEvent.runSetup, AgentEvent.downloadInput,
        AgentEvent.stateWrite Origin.initialRunning "running" false 10,
        AgentEvent.stateWrite Origin.exitArm "completed" true 20,
        AgentEvent.cleanupRun, AgentEvent.uploadOutput, AgentEvent.uploadLogs,
        AgentEvent.selfDelete "droplet-7"], true, false) := by
  exact ⟨by decide, by decide⟩

/-- Every droplet of a `collectDroplets` result either was in the
accumulator already or stems from a page entry carrying the cloudexec
tag. -/
theorem collectDroplets_mem (page : List GodoDroplet) :
    ∀ (acc ds : List Droplet), collectDroplets acc page = Except.ok ds →
      ∀ d ∈ ds, d ∈ acc ∨ ∃ g ip, g ∈ page ∧ cloudexecTag ∈ g.tags ∧
        g.publicIPv4 = some ip ∧ d = dropletOfGodo g ip := by
  induction page with
  | nil =>
    intro acc ds h d hd
    simp only [collectDroplets, Except.ok.injEq] at h
    exact Or.inl (h ▸ hd)
  | cons g rest ih =>
    intro acc ds h d hd
    by_cases hg : cloudexecTag ∈ g.tags
    · rcases hip : g.publicIPv4 with _ | ip
      · simp only [collectDroplets, if_pos hg, hip] at h
        exact Except.noConfusion h
      · simp only [collectDroplets, if_pos hg, hip] at h
        rcases ih _ _ h d hd with hacc | ⟨g2, ip2, hg2, h1, h2, h3⟩
        · rcases List.mem_append.mp hacc with h | h
          · exact Or.inl h
          · simp only [List.mem_singleton] at h
            exact Or.inr ⟨g, ip, List.mem_cons_self g rest, hg, hip, h⟩
        · exact Or.inr ⟨g2, ip2, List.mem_cons_of_mem g hg2, h1, h2, h3⟩
    · simp only [collectDroplets, if_neg hg] at h
      rcases ih _ _ h d hd with hacc | ⟨g2, ip2, hg2, h1, h2, h3⟩
      · exact Or.inl hacc
      · exact Or.inr ⟨g2, ip2, List.mem_cons_of_mem g hg2, h1, h2, h3⟩

/-- Page-loop version of `collectDroplets_mem`. -/
theorem collectPages_mem (pages : List (List GodoDroplet)) :
    ∀ (acc ds : List Droplet), collectPages acc pages = Except.ok ds →
      ∀ d ∈ ds, d ∈ acc ∨ ∃ g ip, g ∈ pages.flatten ∧ cloudexecTag ∈ g.tags ∧
        g.publicIPv4 = some ip ∧ d = dropletOfGodo g ip := by
  induction pages with
  | nil =>
    intro acc ds h d hd
    simp only [collectPages, Except.ok.injEq] at h
    exact Or.inl (h ▸ hd)
  | cons page rest ih =>
    intro acc ds h d hd
    rcases hpage : collectDroplets acc page with e | acc2
    · simp [collectPages, hpage] at h
    · simp only [collectPages, hpage] at h
      rcases ih _ _ h d hd with hacc2 | ⟨g2, ip2, hg2, h1, h2, h3⟩
      · rcases collectDroplets_mem page _ _ hpage d hacc2 with hacc | ⟨g, ip, hgp, h1, h2, h3⟩
        · exact Or.inl hacc
        · refine Or.inr ⟨g, ip, ?_, h1, h2, h3⟩
          exact List.mem_flatten.mpr ⟨page, List.mem_cons_self page rest, hgp⟩
      · refine Or.inr ⟨g2, ip2, ?_, h1, h2, h3⟩
        rcases List.mem_flatten.mp hg2 with ⟨p2, hp2, hgp2⟩
        exact List.mem_flatten.mpr ⟨p2, List.mem_cons_of_mem page hp2, hgp2⟩

/-- C7: every droplet `GetAllDroplets` returns stems from a provider
droplet of the owner-tag listing that carries the `Purpose:cloudexec`
tag; a droplet without that tag never appears in the result, whichever
page it sits on. -/
theorem c7_list_returns_only_purpose_tagged (pages : List (List GodoDroplet))
    (ds : List Droplet) (h : GetAllDroplets pages = Except.ok ds) :
    ∀ d ∈ ds, ∃ g ip, g ∈ pages.flatten ∧ cloudexecTag ∈ g.tags ∧
      g.publicIPv4 = some ip ∧ d = dropletOfGodo g ip := by
  intro d hd
  rcases collectPages_mem pages [] ds h d hd with hacc | hex
  · simp at hacc
  · exact hex

/-- Witness for C7 at the concrete two-droplet page. -/
theorem c7_witness :
    ∃ g ip, g ∈ samplePages.flatten ∧ cloudexecTag ∈ g.tags ∧
      g.publicIPv4 = some ip ∧
      dropletOfGodo taggedGodoDroplet "203.0.113.5" = dropletOfGodo g ip :=
  c7_list_returns_only_purpose_tagged samplePages
    [dropletOfGodo taggedGodoDroplet "203.0.113.5"] (by rfl)
    (dropletOfGodo taggedGodoDroplet "203.0.113.5") (by decide)

/-- A parse failure anywhere in the listing makes the selection loop
fail. -/
theorem snapshotScan_error (parse : String → Option Int) (snaps : List GodoSnapshot) :
    ∀ acc, (∃ s ∈ snaps, parse s.created = none) →
      ∃ e, snapshotScan parse acc snaps = Except.error e := by
  induction snaps with
  | nil => intro acc h; simp at h
  | cons s rest ih =>
    intro acc h
    rcases hps : parse s.created with _ | t
    · exact ⟨"Failed to parse snapshot creation timestamp", by simp only [snapshotScan, hps]⟩
    · rcases h with ⟨s2, hs2, hp2⟩
      rcases List.mem_cons.mp hs2 with h2 | h2
      · subst h2; rw [hps] at hp2; cases hp2
      · by_cases hcond : (afterLatest acc t && hasPrefixStr "cloudexec-" s.name) = true
        · rcases ih (some (s, t)) ⟨s2, h2, hp2⟩ with ⟨e, he⟩
          exact ⟨e, by simp only [snapshotScan, hps, hcond, if_true]; exact he⟩
        · rcases ih acc ⟨s2, h2, hp2⟩ with ⟨e, he⟩
          have hc : (afterLatest acc t && hasPrefixStr "cloudexec-" s.name) = false := by
            revert hcond; cases afterLatest acc t && hasPrefixStr "cloudexec-" s.name <;> simp
          exact ⟨e, by simp only [snapshotScan, hps, hc]; exact he⟩

/-- Full characterization of the selection loop when every timestamp
parses: the accumulator it returns is empty exactly when it started empty
and no listed snapshot has the name prefix, and otherwise holds a
prefixed listed snapshot (or the initial accumulator) whose parsed time
bounds every prefixed listed time from above. -/
theorem snapshotScan_ok (parse : String → Option Int) (snaps : List GodoSnapshot) :
    ∀ acc : Option (GodoSnapshot × Int),
      (∀ s ∈ snaps, (parse s.created).isSome) →
      ∃ acc2, snapshotScan parse acc snaps = Except.ok acc2 ∧
        (acc2 = none ↔ (acc = none ∧ ∀ s ∈ snaps, hasPrefixStr "cloudexec-" s.name = false)) ∧
        (∀ s t, acc2 = some (s, t) →
          (acc = some (s, t) ∨
            (s ∈ snaps ∧ hasPrefixStr "cloudexec-" s.name = true ∧ parse s.created = some t)) ∧
          (∀ s0 t0, acc = some (s0, t0) → t0 ≤ t) ∧
          (∀ s2 ∈ snaps, hasPrefixStr "cloudexec-" s2.name = true →
            ∀ t2, parse s2.created = some t2 → t2 ≤ t)) := by
  induction snaps with
  | nil =>
    intro acc _
    refine ⟨acc, rfl, by simp, ?_⟩
    rintro s t rfl
    refine ⟨Or.inl rfl, ?_, by simp⟩
    rintro s0 t0 h0
    rw [Option.some.injEq, Prod.mk.injEq] at h0
    exact le_of_eq h0.2.symm
  | cons s rest ih =>
    intro acc hp
    have hs : (parse s.created).isSome := hp s (List.mem_cons_self s rest)
    rcases hps : parse s.created with _ | t
    · rw [hps] at hs; cases hs
    · have hprest : ∀ s2 ∈ rest, (parse s2.created).isSome :=
        fun s2 h2 => hp s2 (List.mem_cons_of_mem s h2)
      by_cases hcond : (afterLatest acc t && hasPrefixStr "cloudexec-" s.name) = true
      · have hboth : afterLatest acc t = true ∧ hasPrefixStr "cloudexec-" s.name = true := by
          rw [Bool.and_eq_true] at hcond; exact hcond
        have hpre : hasPrefixStr "cloudexec-" s.name = true := hboth.2
        have hafter : afterLatest acc t = true := hboth.1
        rcases ih (some (s, t)) hprest with ⟨acc2, hscan, hiff, hsome⟩
        refine ⟨acc2, by simp only [snapshotScan, hps, hcond, if_true]; exact hscan, ?_, ?_⟩
        · constructor
          · intro h2
            rcases hiff.mp h2 with ⟨h3, _⟩
            cases h3
          · rintro ⟨_, h4⟩
            have h5 := h4 s (List.mem_cons_self s rest)
            rw [hpre] at h5
            cases h5
        · intro s2 t2 h2
          rcases hsome s2 t2 h2 with ⟨horig, hge, hall⟩
          have htle : t ≤ t2 := hge s t rfl
          refine ⟨?_, ?_, ?_⟩
          · rcases horig with h3 | ⟨h3, h4, h5⟩
            · rw [Option.some.injEq, Prod.mk.injEq] at h3
              rcases h3 with ⟨h3a, h3b⟩
              subst h3a; subst h3b
              exact Or.inr ⟨List.mem_cons_self s rest, hpre, hps⟩
            · exact Or.inr ⟨List.mem_cons_of_mem s h3, h4, h5⟩
          · intro s0 t0 h0
            rw [h0] at hafter
            have : t0 < t := by
              simpa [afterLatest] using hafter
            exact le_trans (le_of_lt this) htle
          · intro s2t hs2t hpre2 t2t hp2t
            rcases List.mem_cons.mp hs2t with h3 | h3
            · subst h3
              rw [hps, Option.some.injEq] at hp2t
              rw [← hp2t]
              exact htle
            · exact hall s2t h3 hpre2 t2t hp2t
      · have hc : (afterLatest acc t && hasPrefixStr "cloudexec-" s.name) = false := by
          revert hcond; cases afterLatest acc t && hasPrefixStr "cloudexec-" s.name <;> simp
        rcases ih acc hprest with ⟨acc2, hscan, hiff, hsome⟩
        refine ⟨acc2, by simp only [snapshotScan, hps, hc]; exact hscan, ?_, ?_⟩
        · constructor
          · intro h2
            rcases hiff.mp h2 with ⟨h3, h4⟩
            refine ⟨h3, ?_⟩
            intro s2 hs2
            rcases List.mem_cons.mp hs2 with h5 | h5
            · subst h5
              have : afterLatest acc t = true := by rw [h3]; rfl
              rw [this] at hc
              simpa using hc
            · exact h4 s2 h5
          · rintro ⟨h3, h4⟩
            exact hiff.mpr ⟨h3, fun s2 h5 => h4 s2 (List.mem_cons_of_mem s h5)⟩
        · intro s2 t2 h2
          rcases hsome s2 t2 h2 with ⟨horig, hge, hall⟩
          refine ⟨?_, hge, ?_⟩
          · rcases horig with h3 | ⟨h3, h4, h5⟩
            · exact Or.inl h3
            · exact Or.inr ⟨List.mem_cons_of_mem s h3, h4, h5⟩
          · intro s2t hs2t hpre2 t2t hp2t
            rcases List.mem_cons.mp hs2t with h3 | h3
            · subst h3
              rw [hpre2, Bool.and_true] at hc
              rcases hacc : acc with _ | ⟨a, ct⟩
              · rw [hacc] at hc; cases hc
              · rw [hacc] at hc
                have hle : t ≤ ct := by
                  have := hc
                  simp only [afterLatest, decide_eq_false_iff_not, not_lt] at this
                  exact this
                have hctle : ct ≤ t2 := hge a ct hacc
                rw [hps, Option.some.injEq] at hp2t
                rw [← hp2t]
                exact le_trans hle hctle
            · exact hall s2t h3 hpre2 t2t hp2t

/-- C4: `GetLatestSnapshot` fails when any listed snapshot timestamp does
not parse; with all timestamps parseable it returns the fallback identity
with image id `"ubuntu-20-04-x64"` exactly when no snapshot name carries
the `cloudexec-` prefix, and otherwise a prefixed listed snapshot whose
parsed creation time is maximal among prefixed snapshots. -/
theorem c4_get_latest_snapshot_spec (parse : String → Option Int)
    (snaps : List GodoSnapshot) :
    ((∃ s ∈ snaps, parse s.created = none) →
      ∃ e, GetLatestSnapshot parse snaps = Except.error e) ∧
    ((∀ s ∈ snaps, (parse s.created).isSome) →
      ((∀ s ∈ snaps, hasPrefixStr "cloudexec-" s.name = false) ↔
        GetLatestSnapshot parse snaps = Except.ok fallbackSnapshot) ∧
      ((∃ s ∈ snaps, hasPrefixStr "cloudexec-" s.name = true) →
        ∃ s t, GetLatestSnapshot parse snaps = Except.ok { name := s.name, id := s.id } ∧
          s ∈ snaps ∧ hasPrefixStr "cloudexec-" s.name = true ∧ parse s.created = some t ∧
          ∀ s2 ∈ snaps, hasPrefixStr "cloudexec-" s2.name = true →
            ∀ t2, parse s2.created = some t2 → t2 ≤ t)) := by
  constructor
  · intro h
    rcases snapshotScan_error parse snaps none h with ⟨e, he⟩
    exact ⟨e, by simp only [GetLatestSnapshot, he]⟩
  · intro hp
    rcases snapshotScan_ok parse snaps none hp with ⟨acc2, hscan, hiff, hsome⟩
    constructor
    · constructor
      · intro h
        have : acc2 = none := hiff.mpr ⟨rfl, h⟩
        simp only [GetLatestSnapshot, hscan, this]
      · intro h
        rcases hacc2 : acc2 with _ | ⟨s, t⟩
        · exact (hiff.mp hacc2).2
        · rcases hsome s t hacc2 with ⟨horig, _, _⟩
          rcases horig with h3 | ⟨_, h4, _⟩
          · cases h3
          · simp only [GetLatestSnapshot, hscan, hacc2] at h
            rw [Except.ok.injEq] at h
            have hname : s.name = "fallback" := by
              have := congrArg Snapshot.name h
              simpa [fallbackSnapshot] using this
            rw [hname] at h4
            cases h4
    · intro h
      rcases hacc2 : acc2 with _ | ⟨s, t⟩
      · rcases h with ⟨s2, hs2, hp2⟩
        have := (hiff.mp hacc2).2 s2 hs2
        rw [hp2] at this
        cases this
      · rcases hsome s t hacc2 with ⟨horig, _, hall⟩
        rcases horig with h3 | ⟨h3, h4, h5⟩
        · cases h3
        · exact ⟨s, t, by simp only [GetLatestSnapshot, hscan, hacc2], h3, h4, h5, hall⟩

/-- Witness for C4 at a concrete listing holding two prefixed snapshots
and a foreign one. -/
theorem c4_witness :
    ∃ s t, GetLatestSnapshot sampleParse sampleSnapshots
        = Except.ok { name := s.name, id := s.id } ∧
      s ∈ sampleSnapshots ∧ hasPrefixStr "cloudexec-" s.name = true ∧
      sampleParse s.created = some t ∧
      ∀ s2 ∈ sampleSnapshots, hasPrefixStr "cloudexec-" s2.name = true →
        ∀ t2, sampleParse s2.created = some t2 → t2 ≤ t :=
  ((c4_get_latest_snapshot_spec sampleParse sampleSnapshots).2 (by decide)).2
    ⟨{ name := "cloudexec-a", id := "img-1", created := "5" }, by decide, by decide⟩

/-- The effects of the create phase: the create call with the resolved
fingerprint, followed only by the wait and re-fetch calls. -/
theorem createDropletPhase_effects (env : ProviderEnv) (fp : String) (effs : List Effect) :
    ∃ tail, (createDropletPhase env fp effs).2 = effs ++ Effect.createDropletCall fp :: tail ∧
      ∀ e ∈ tail, e = Effect.waitForActiveCall ∨ e = Effect.getDropletCall := by
  rcases hcd : env.createDroplet with e | created
  · exact ⟨[], by simp [createDropletPhase, hcd], by simp⟩
  · cases hl : env.createActionLink
    · rcases hip : created.publicIPv4 with _ | ip
      · exact ⟨[], by simp [createDropletPhase, hcd, hl, hip], by simp⟩
      · exact ⟨[], by simp [createDropletPhase, hcd, hl, hip], by simp⟩
    · rcases hget : env.getDroplet with e2 | d
      · exact ⟨[Effect.waitForActiveCall, Effect.getDropletCall],
          by simp [createDropletPhase, hcd, hl, hget], by decide⟩
      · rcases hip : d.publicIPv4 with _ | ip
        · exact ⟨[Effect.waitForActiveCall, Effect.getDropletCall],
            by simp [createDropletPhase, hcd, hl, hget, hip], by decide⟩
        · exact ⟨[Effect.waitForActiveCall, Effect.getDropletCall],
            by simp [createDropletPhase, hcd, hl, hget, hip], by decide⟩

/-- C5: when the provider listing succeeds and holds a key under the
deterministic name `cloudexec-<username>`, byte-identical material means
the stored fingerprint is reused and no key is registered, while
different material is a fatal error after which no key is registered and
no droplet is created. -/
theorem c5_deterministic_key_reconciliation (env : ProviderEnv)
    (username publicKey : String) (keys : List GodoKey) (k : GodoKey)
    (hl : env.listKeys = Except.ok keys)
    (hf : keys.find? (fun kk => kk.name == "cloudexec-" ++ username) = some k) :
    (k.publicKey = publicKey →
      (∀ n p, Effect.createKeyCall n p ∉ (CreateDroplet env username publicKey).2) ∧
      (∀ fp, Effect.createDropletCall fp ∈ (CreateDroplet env username publicKey).2 →
        fp = k.fingerprint)) ∧
    (k.publicKey ≠ publicKey →
      (∃ e, (CreateDroplet env username publicKey).1 = Except.error e) ∧
      (CreateDroplet env username publicKey).2 = [Effect.listKeysCall]) := by
  have hfind : findSSHKeyOnDigitalOcean env.listKeys ("cloudexec-" ++ username)
      = Except.ok (k.fingerprint, k.publicKey) := by
    simp [findSSHKeyOnDigitalOcean, hl, hf]
  constructor
  · intro hkey
    have hphase : sshKeyPhase env username publicKey
        = (Except.ok k.fingerprint, [Effect.listKeysCall]) := by
      simp only [sshKeyPhase, hfind]
      rw [if_neg (fun hne => hne hkey.symm)]
    rcases hsnap : snapshotPhase env with e | snap
    · have heq : (CreateDroplet env username publicKey).2 = [Effect.listKeysCall] := by
        simp [CreateDroplet, hphase, hsnap]
      constructor
      · intro n p hmem
        rw [heq] at hmem
        simp at hmem
      · intro fp hfp
        rw [heq] at hfp
        simp at hfp
    · rcases createDropletPhase_effects env k.fingerprint [Effect.listKeysCall] with
        ⟨tail, htail, hwg⟩
      have heq : (CreateDroplet env username publicKey).2
          = (createDropletPhase env k.fingerprint [Effect.listKeysCall]).2 := by
        simp [CreateDroplet, hphase, hsnap]
      constructor
      · intro n p hmem
        rw [heq, htail] at hmem
        rcases List.mem_append.mp hmem with h | h
        · simp at h
        · rcases List.mem_cons.mp h with h | h
          · exact Effect.noConfusion h
          · rcases hwg _ h with h2 | h2 <;> exact Effect.noConfusion h2
      · intro fp hfp
        rw [heq, htail] at hfp
        rcases List.mem_append.mp hfp with h | h
        · simp at h
        · rcases List.mem_cons.mp h with h | h
          · injection h
          · rcases hwg _ h with h2 | h2 <;> exact Effect.noConfusion h2
  · intro hne
    have hphase : sshKeyPhase env username publicKey
        = (Except.error "Keys do not match! Consider removing your old key from DigitalOcean Security settings and re-running cloudexec launch.",
           [Effect.listKeysCall]) := by
      simp only [sshKeyPhase, hfind]
      rw [if_pos (fun h => hne h.symm)]
    exact ⟨⟨"Keys do not match! Consider removing your old key from DigitalOcean Security settings and re-running cloudexec launch.",
      by simp [CreateDroplet, hphase]⟩, by simp [CreateDroplet, hphase]⟩

/-- Witness for C5 at an environment storing `cloudexec-alice` with
matching material. -/
theorem c5_witness :
    (∀ n p, Effect.createKeyCall n p ∉ (CreateDroplet envKeyStored "alice" "pk").2) ∧
    (∀ fp, Effect.createDropletCall fp ∈ (CreateDroplet envKeyStored "alice" "pk").2 →
      fp = "fp-old") :=
  (c5_deterministic_key_reconciliation envKeyStored "alice" "pk"
    [{ name := "cloudexec-alice", fingerprint := "fp-old", publicKey := "pk" }]
    { name := "cloudexec-alice", fingerprint := "fp-old", publicKey := "pk" }
    rfl (by decide)).1 rfl

/-- C6 counterexample: with the key listing failing (`"boom"`) and every
later call succeeding, `CreateDroplet` registers a brand-new key and
returns success — the listing failure is not surfaced to the caller. -/
theorem c6_counterexample :
    envListFail.listKeys = Except.error "boom" ∧
    (CreateDroplet envListFail "alice" "pk").1
      = Except.ok (dropletOfGodo taggedGodoDroplet "203.0.113.5") ∧
    Effect.createKeyCall "cloudexec-alice" "pk" ∈ (CreateDroplet envListFail "alice" "pk").2 := by
  exact ⟨rfl, by rfl, by decide⟩

/-- C6 amended: a provider-API failure while listing the SSH keys is
wrapped inside the lookup helper, but `CreateDroplet` treats any lookup
failure as key-not-found and proceeds to register a new key under the
deterministic name; only a failure of that registration surfaces as the
error of the call. -/
theorem c6_list_failure_triggers_registration (env : ProviderEnv)
    (username publicKey e : String) (hl : env.listKeys = Except.error e) :
    Effect.createKeyCall ("cloudexec-" ++ username) publicKey
        ∈ (CreateDroplet env username publicKey).2 ∧
    (∀ ce, env.createKey = Except.error ce →
      ∃ e2, (CreateDroplet env username publicKey).1 = Except.error e2) := by
  have hfind : findSSHKeyOnDigitalOcean env.listKeys ("cloudexec-" ++ username)
      = Except.error ("Failed to list DigitalOcean SSH keys: " ++ e) := by
    simp [findSSHKeyOnDigitalOcean, hl]
  constructor
  · rcases hck : env.createKey with ce | fp
    · have hphase : sshKeyPhase env username publicKey
          = (Except.error ("Failed to create SSH key on DigitalOcean: "
              ++ ("Failed to create SSH key on DigitalOcean: " ++ ce)),
             [Effect.listKeysCall,
              Effect.createKeyCall ("cloudexec-" ++ username) publicKey]) := by
        simp [sshKeyPhase, hfind, createSSHKeyOnDigitalOcean, hck]
      simp [CreateDroplet, hphase]
    · have hphase : sshKeyPhase env username publicKey
          = (Except.ok fp,
             [Effect.listKeysCall,
              Effect.createKeyCall ("cloudexec-" ++ username) publicKey]) := by
        simp [sshKeyPhase, hfind, createSSHKeyOnDigitalOcean, hck]
      rcases hsnap : snapshotPhase env with e2 | snap
      · simp [CreateDroplet, hphase, hsnap]
      · rcases createDropletPhase_effects env fp
          [Effect.listKeysCall,
           Effect.createKeyCall ("cloudexec-" ++ username) publicKey] with ⟨tail, htail, _⟩
        have heq : (CreateDroplet env username publicKey).2
            = (createDropletPhase env fp
                [Effect.listKeysCall,
                 Effect.createKeyCall ("cloudexec-" ++ username) publicKey]).2 := by
          simp [CreateDroplet, hphase, hsnap]
        rw [heq, htail]
        simp
  · intro ce hck
    have hphase : sshKeyPhase env username publicKey
        = (Except.error ("Failed to create SSH key on DigitalOcean: "
            ++ ("Failed to create SSH key on DigitalOcean: " ++ ce)),
           [Effect.listKeysCall,
            Effect.createKeyCall ("cloudexec-" ++ username) publicKey]) := by
      simp [sshKeyPhase, hfind, createSSHKeyOnDigitalOcean, hck]
    exact ⟨"Failed to create SSH key on DigitalOcean: "
        ++ ("Failed to create SSH key on DigitalOcean: " ++ ce),
      by simp [CreateDroplet, hphase]⟩

/-- Witness for the amended C6 at the concrete failing listing. -/
theorem c6_witness :
    Effect.createKeyCall ("cloudexec-" ++ "alice") "pk"
      ∈ (CreateDroplet envListFail "alice" "pk").2 :=
  (c6_list_failure_triggers_registration envListFail "alice" "pk" "boom" rfl).1

/-- C2 counterexample: with the wait on the create action failing and
every other call succeeding, `CreateDroplet` still returns a droplet
descriptor — the failed provider action does not surface as an error. -/
theorem c2_counterexample :
    envWaitFail.waitForActive = Except.error "create action failed" ∧
    envWaitFail.createActionLink = true ∧
    (CreateDroplet envWaitFail "alice" "pk").1
      = Except.ok (dropletOfGodo taggedGodoDroplet "203.0.113.5") := by
  exact ⟨rfl, rfl, by rfl⟩

/-- C2 amended: `CreateDroplet` discards the outcome of waiting for the
create action (`_ = util.WaitForActive`), so its result and effects do
not depend on it.  When the create response carries a create-action link,
a descriptor is returned only after the instance has been re-fetched
successfully, with the address resolved from the re-fetched instance;
re-fetch and address-resolution failures surface as errors. -/
theorem c2_wait_discarded_refetch_decides (env : ProviderEnv)
    (username publicKey : String) :
    (∀ w, CreateDroplet { env with waitForActive := w } username publicKey
        = CreateDroplet env username publicKey) ∧
    (env.createActionLink = true →
      ∀ d, (CreateDroplet env username publicKey).1 = Except.ok d →
        ∃ g, env.getDroplet = Except.ok g ∧ g.publicIPv4 = some d.ip ∧
          d = dropletOfGodo g d.ip) := by
  constructor
  · intro w
    rcases env with ⟨lk, ck, sn, pt, cd, cal, wf, gd⟩
    rfl
  · intro hlink d hok
    rcases hphase : sshKeyPhase env username publicKey with ⟨res, effs⟩
    rcases res with e | fp
    · simp [CreateDroplet, hphase] at hok
    · rcases hsnap : snapshotPhase env with e2 | snap
      · simp [CreateDroplet, hphase, hsnap] at hok
      · have hok2 : (createDropletPhase env fp effs).1 = Except.ok d := by
          rw [← hok]
          simp [CreateDroplet, hphase, hsnap]
        rcases hcd : env.createDroplet with e3 | created
        · simp [createDropletPhase, hcd] at hok2
        · rcases hget : env.getDroplet with e4 | g
          · simp [createDropletPhase, hcd, hlink, hget] at hok2
          · rcases hip : g.publicIPv4 with _ | ip
            · simp [createDropletPhase, hcd, hlink, hget, hip] at hok2
            · have hd : d = dropletOfGodo g ip := by
                simpa [createDropletPhase, hcd, hlink, hget, hip] using hok2.symm
              have hdip : d.ip = ip := by rw [hd]; rfl
              exact ⟨g, rfl, by rw [hdip]; exact hip, by rw [hdip]; exact hd⟩

/-- Witness for the amended C2 at an environment whose create response
carries an action link and whose re-fetch succeeds. -/
theorem c2_witness :
    ∃ g, envKeyStored.getDroplet = Except.ok g ∧
      g.publicIPv4 = some (dropletOfGodo taggedGodoDroplet "203.0.113.5").ip ∧
      dropletOfGodo taggedGodoDroplet "203.0.113.5"
        = dropletOfGodo g (dropletOfGodo taggedGodoDroplet "203.0.113.5").ip :=
  (c2_wait_discarded_refetch_decides envKeyStored "alice" "pk").2 rfl
    (dropletOfGodo taggedGodoDroplet "203.0.113.5") (by rfl)

/-- `update_state` preserves the length of the jobs array. -/
theorem update_state_length (doc : StateDoc) (jid : Int) (s : String) (t : Int) (f : Bool) :
    (update_state doc jid s t f).jobs.length = doc.jobs.length := by
  simp [update_state]

/-- `update_state` acts pointwise through `updateJobRecord`. -/
theorem update_state_get (doc : StateDoc) (jid : Int) (s : String) (t : Int) (f : Bool)
    (i : Nat) (h : i < doc.jobs.length) (h2 : i < (update_state doc jid s t f).jobs.length) :
    (update_state doc jid s t f).jobs.get ⟨i, h2⟩
      = updateJobRecord jid s t f (doc.jobs.get ⟨i, h⟩) := by
  simp [update_state, List.get_eq_getElem, List.getElem_map]

/-- `updateJobRecord` on a non-matching record is the identity. -/
theorem updateJobRecord_other (jid : Int) (s : String) (t : Int) (f : Bool)
    (j : JobRecord) (hid : j.id ≠ jid) : updateJobRecord jid s t f j = j := by
  simp only [updateJobRecord]
  rw [if_neg (by simpa using hid)]

/-- `updateJobRecord` on the matching record sets exactly `status`,
`updated_at` and — when the flag is set — `completed_at`. -/
theorem updateJobRecord_matched (jid : Int) (s : String) (t : Int) (f : Bool)
    (j : JobRecord) (hid : j.id = jid) :
    updateJobRecord jid s t f j =
      { j with
        status := s
        updated_at := t
        completed_at := if f then some t else j.completed_at } := by
  simp only [updateJobRecord]
  rw [if_pos (by simpa using hid)]
  cases f <;> rfl

/-- C9: `update_state` keeps every top-level field other than `.jobs`,
keeps the array length, leaves every record whose id differs from the
job id untouched, rewrites only `status`, `updated_at` and (when the
completed flag is set) `completed_at` of matching records, and is the
identity on documents holding no matching record. -/
theorem c9_update_state_frame (doc : StateDoc) (jid : Int) (s : String)
    (t : Int) (f : Bool) :
    (update_state doc jid s t f).rest = doc.rest ∧
    (update_state doc jid s t f).jobs.length = doc.jobs.length ∧
    (∀ i (h : i < doc.jobs.length) (h2 : i < (update_state doc jid s t f).jobs.length),
      ((doc.jobs.get ⟨i, h⟩).id ≠ jid →
        (update_state doc jid s t f).jobs.get ⟨i, h2⟩ = doc.jobs.get ⟨i, h⟩) ∧
      ((doc.jobs.get ⟨i, h⟩).id = jid →
        (update_state doc jid s t f).jobs.get ⟨i, h2⟩ =
          { doc.jobs.get ⟨i, h⟩ with
            status := s
            updated_at := t
            completed_at :=
              if f then some t else (doc.jobs.get ⟨i, h⟩).completed_at })) ∧
    ((∀ j ∈ doc.jobs, j.id ≠ jid) → update_state doc jid s t f = doc) := by
  refine ⟨rfl, update_state_length doc jid s t f, ?_, ?_⟩
  · intro i h h2
    constructor
    · intro hne
      rw [update_state_get doc jid s t f i h h2, updateJobRecord_other jid s t f _ hne]
    · intro hid
      rw [update_state_get doc jid s t f i h h2, updateJobRecord_matched jid s t f _ hid]
  · intro hall
    have hmap : ∀ l : List JobRecord, (∀ j ∈ l, j.id ≠ jid) →
        l.map (updateJobRecord jid s t f) = l := by
      intro l
      induction l with
      | nil => intro _; rfl
      | cons a as ihl =>
        intro hl
        rw [List.map_cons,
          updateJobRecord_other jid s t f a (hl a (List.mem_cons_self a as)),
          ihl fun j hj => hl j (List.mem_cons_of_mem a hj)]
    simp only [update_state, hmap doc.jobs hall]

/-- Witness for C9: a job id matching no record leaves the document
unchanged. -/
theorem c9_witness : update_state sampleDoc 99 "failed" 100 false = sampleDoc :=
  (c9_update_state_frame sampleDoc 99 "failed" 100 false).2.2.2 (by decide)

/-- Every state write of the monitoring loop is either the exit-code arm
(flag set, status never `timedout`) or the timeout arm (flag clear,
status `timedout`, time strictly past the deadline, on an iteration whose
exit-code file was empty). -/
theorem monitorLoop_write (endTime heartbeat : Int) (obs : List Obs) :
    ∀ (nextSync : Int) (o : Origin) (s : String) (f : Bool) (t : Int),
      AgentEvent.stateWrite o s f t ∈ (monitorLoop endTime nextSync heartbeat obs).1 →
      (o = Origin.exitArm ∧ f = true ∧ s ≠ "timedout" ∧
        ∃ ob ∈ obs, ob.time = t ∧ ob.exitCode ≠ none) ∨
      (o = Origin.timeoutArm ∧ f = false ∧ s = "timedout" ∧ t > endTime ∧
        ∃ ob ∈ obs, ob.time = t ∧ ob.exitCode = none) := by
  induction obs with
  | nil => intro ns o s f t h; simp [monitorLoop] at h
  | cons ob rest ih =>
    intro ns o s f t h
    rcases hec : ob.exitCode with _ | c
    · by_cases ht : ob.time > endTime
      · simp only [monitorLoop, hec, if_pos ht] at h
        have h2 := List.mem_singleton.mp h
        injection h2 with h1 h2 h3 h4
        subst h1; subst h2; subst h3; subst h4
        exact Or.inr ⟨rfl, rfl, rfl, ht, ob, List.mem_cons_self ob rest, rfl, hec⟩
      · by_cases hs : ob.time > ns
        · simp only [monitorLoop, hec, if_neg ht, if_pos hs, List.mem_cons] at h
          rcases h with h | h
          · exact AgentEvent.noConfusion h
          · rcases ih (ns + heartbeat) o s f t h with
              ⟨h1, h2, h3, ob2, hob2, h4⟩ | ⟨h1, h2, h3, h4, ob2, hob2, h5⟩
            · exact Or.inl ⟨h1, h2, h3, ob2, List.mem_cons_of_mem ob hob2, h4⟩
            · exact Or.inr ⟨h1, h2, h3, h4, ob2, List.mem_cons_of_mem ob hob2, h5⟩
        · simp only [monitorLoop, hec, if_neg ht, if_neg hs] at h
          rcases ih ns o s f t h with
            ⟨h1, h2, h3, ob2, hob2, h4⟩ | ⟨h1, h2, h3, h4, ob2, hob2, h5⟩
          · exact Or.inl ⟨h1, h2, h3, ob2, List.mem_cons_of_mem ob hob2, h4⟩
          · exact Or.inr ⟨h1, h2, h3, h4, ob2, List.mem_cons_of_mem ob hob2, h5⟩
    · simp only [monitorLoop, hec] at h
      have h2 := List.mem_singleton.mp h
      injection h2 with h1 h2 h3 h4
      subst h1; subst h2; subst h3; subst h4
      refine Or.inl ⟨rfl, rfl, ?_, ob, List.mem_cons_self ob rest, rfl, by rw [hec]; simp⟩
      cases hc : c == 0 <;> simp [hc]

/-- The monitoring loop never emits the cleanup marker. -/
theorem monitorLoop_no_cleanupRun (endTime heartbeat : Int) (obs : List Obs) :
    ∀ nextSync, AgentEvent.cleanupRun ∉ (monitorLoop endTime nextSync heartbeat obs).1 := by
  induction obs with
  | nil => intro ns h; simp [monitorLoop] at h
  | cons ob rest ih =>
    intro ns h
    rcases hec : ob.exitCode with _ | c
    · by_cases ht : ob.time > endTime
      · simp [monitorLoop, hec, ht] at h
      · by_cases hs : ob.time > ns
        · simp only [monitorLoop, hec, if_neg ht, if_pos hs, List.mem_cons] at h
          rcases h with h | h
          · exact AgentEvent.noConfusion h
          · exact ih (ns + heartbeat) h
        · simp only [monitorLoop, hec, if_neg ht, if_neg hs] at h
          exact ih ns h
    · simp [monitorLoop, hec] at h

/-- Every state write of `cleanup` is the `failed` publication made with
both flags clear. -/
theorem cleanup_write (c t : Bool) (tm : Int) (id : String) (o : Origin)
    (s : String) (f : Bool) (tt : Int)
    (h : AgentEvent.stateWrite o s f tt ∈ cleanup c t tm id) :
    o = Origin.cleanupArm ∧ s = "failed" ∧ f = false ∧ tt = tm := by
  cases c <;> cases t <;> simp [cleanup] at h <;> exact h

/-- `cleanup` emits its marker exactly once. -/
theorem cleanup_count (c t : Bool) (tm : Int) (id : String) :
    (cleanup c t tm id).count AgentEvent.cleanupRun = 1 := by
  cases c <;> cases t <;> rfl

/-- Every state write of an agent run is the initial `running` write, a
monitoring-loop write, or the cleanup `failed` write. -/
theorem agentRun_write (env : AgentRunEnv) (o : Origin) (s : String) (f : Bool) (t : Int)
    (h : AgentEvent.stateWrite o s f t ∈ (agentRun env).1) :
    (o = Origin.initialRunning ∧ s = "running" ∧ f = false) ∨
    AgentEvent.stateWrite o s f t ∈
      (monitorLoop (env.startTime + env.timeout) (env.startTime + 60) 60 env.obs).1 ∨
    (o = Origin.cleanupArm ∧ s = "failed" ∧ f = false) := by
  rcases hg : identityGate env.tags env.vars with _ | _ | _ | ⟨w, b⟩
  · simp [agentRun, hg] at h
  · simp [agentRun, hg] at h
  · simp [agentRun, hg] at h
  · by_cases hsetup : env.setupOk = false
    · simp only [agentRun, hg, if_pos hsetup, List.mem_cons] at h
      rcases h with h | h
      · exact AgentEvent.noConfusion h
      · rcases cleanup_write false false env.cleanupTime env.dropletId o s f t h with
          ⟨h1, h2, h3, _⟩
        exact Or.inr (Or.inr ⟨h1, h2, h3⟩)
    · by_cases hinput : env.inputOk = false
      · simp only [agentRun, hg, if_neg hsetup, if_pos hinput, List.mem_cons] at h
        rcases h with h | h
        · exact AgentEvent.noConfusion h
        rcases h with h | h
        · exact AgentEvent.noConfusion h
        rcases cleanup_write false false env.cleanupTime env.dropletId o s f t h with
          ⟨h1, h2, h3, _⟩
        exact Or.inr (Or.inr ⟨h1, h2, h3⟩)
      · simp only [agentRun, hg, if_neg hsetup, if_neg hinput, List.mem_cons,
          List.mem_append] at h
        rcases h with (h | h | h | h) | h
        · exact AgentEvent.noConfusion h
        · exact AgentEvent.noConfusion h
        · injection h with h1 h2 h3 h4
          exact Or.inl ⟨h1, h2, h3⟩
        · exact Or.inr (Or.inl h)
        · rcases cleanup_write _ _ env.cleanupTime env.dropletId o s f t h with
            ⟨h1, h2, h3, _⟩
          exact Or.inr (Or.inr ⟨h1, h2, h3⟩)

/-- In every agent trace, a write carries the completed flag exactly when
it is the exit-code arm of the race. -/
theorem agentRun_write_flag (env : AgentRunEnv) (o : Origin) (s : String)
    (f : Bool) (t : Int)
    (h : AgentEvent.stateWrite o s f t ∈ (agentRun env).1) :
    f = true ↔ o = Origin.exitArm := by
  rcases agentRun_write env o s f t h with ⟨h1, _, h3⟩ | h2 | ⟨h1, _, h3⟩
  · subst h1; subst h3; decide
  · rcases monitorLoop_write (env.startTime + env.timeout) 60 env.obs
        (env.startTime + 60) o s f t h2 with ⟨h1, h3, _⟩ | ⟨h1, h3, _⟩
    · subst h1; subst h3; decide
    · subst h1; subst h3; decide
  · subst h1; subst h3; decide

/-- C10: the exit-code check precedes the timeout check in each poll
iteration — an iteration observing a recorded exit code resolves the race
with `completed`/`failed` even when the deadline has passed — and a
`timedout` write happens only at an iteration with no recorded exit code
whose observed time strictly exceeds `start_time + TIMEOUT`. -/
theorem c10_exit_check_precedes_timeout :
    (∀ (endTime nextSync heartbeat : Int) (o : Obs) (rest : List Obs) (c : Nat),
      o.exitCode = some c →
      monitorLoop endTime nextSync heartbeat (o :: rest) =
        ([AgentEvent.stateWrite Origin.exitArm
            (if c == 0 then "completed" else "failed") true o.time], true, false)) ∧
    (∀ (endTime nextSync heartbeat : Int) (obs : List Obs) (o : Origin) (s : String)
        (f : Bool) (t : Int),
      AgentEvent.stateWrite o s f t ∈ (monitorLoop endTime nextSync heartbeat obs).1 →
      s = "timedout" → t > endTime ∧ ∃ ob ∈ obs, ob.time = t ∧ ob.exitCode = none) ∧
    (∀ (env : AgentRunEnv) (o : Origin) (s : String) (f : Bool) (t : Int),
      AgentEvent.stateWrite o s f t ∈ (agentRun env).1 → s = "timedout" →
      t > env.startTime + env.timeout) := by
  refine ⟨?_, ?_, ?_⟩
  · intro endTime ns hb o rest c hec
    simp [monitorLoop, hec]
  · intro endTime ns hb obs o s f t h hs
    rcases monitorLoop_write endTime hb obs ns o s f t h with
      ⟨_, _, h3, _⟩ | ⟨_, _, _, h4, h5⟩
    · exact absurd hs h3
    · exact ⟨h4, h5⟩
  · intro env o s f t h hs
    rcases agentRun_write env o s f t h with ⟨_, h2, _⟩ | h2 | ⟨_, h2, _⟩
    · rw [hs] at h2; exact absurd h2 (by decide)
    · rcases monitorLoop_write (env.startTime + env.timeout) 60 env.obs
          (env.startTime + 60) o s f t h2 with ⟨_, _, h3, _⟩ | ⟨_, _, _, h4, _⟩
      · exact absurd hs h3
      · exact h4
    · rw [hs] at h2; exact absurd h2 (by decide)

/-- Witness for C10: an iteration whose time 200 is far past the deadline
111 but whose exit code 2 is recorded resolves as `failed`, not
`timedout`. -/
theorem c10_witness :
    monitorLoop 111 71 60 [{ time := 200, exitCode := some 2 }] =
      ([AgentEvent.stateWrite Origin.exitArm "failed" true 200], true, false) :=
  c10_exit_check_precedes_timeout.1 111 71 60 { time := 200, exitCode := some 2 } [] 2 rfl

/-- C8: once the gate lets the run proceed (the trap of line 210 armed),
every termination path runs `cleanup` exactly once, and when neither the
completed nor the timedout flag was set beforehand the cleanup block
publishes `failed` first, uploads output and logs, and ends the whole
trace with the self-delete of the instance id. -/
theorem c8_cleanup_exactly_once_and_ordered (env : AgentRunEnv) (w : Bool) (b : String)
    (hg : identityGate env.tags env.vars = GateResult.proceed w b) :
    ((agentRun env).1.count AgentEvent.cleanupRun = 1) ∧
    ((agentRun env).2.1 = false → (agentRun env).2.2 = false →
      ∃ pre, (agentRun env).1 = pre ++
          [AgentEvent.cleanupRun,
           AgentEvent.stateWrite Origin.cleanupArm "failed" false env.cleanupTime,
           AgentEvent.uploadOutput, AgentEvent.uploadLogs,
           AgentEvent.selfDelete env.dropletId] ∧
        AgentEvent.cleanupRun ∉ pre) := by
  by_cases hsetup : env.setupOk = false
  · have htr : agentRun env = (AgentEvent.runSetup ::
        cleanup false false env.cleanupTime env.dropletId, false, false) := by
      simp [agentRun, hg, hsetup]
    rw [htr]
    exact ⟨rfl, fun _ _ => ⟨[AgentEvent.runSetup], rfl, by simp⟩⟩
  · by_cases hinput : env.inputOk = false
    · have htr : agentRun env = (AgentEvent.runSetup :: AgentEvent.downloadInput ::
          cleanup false false env.cleanupTime env.dropletId, false, false) := by
        simp [agentRun, hg, hsetup, hinput]
      rw [htr]
      exact ⟨rfl, fun _ _ => ⟨[AgentEvent.runSetup, AgentEvent.downloadInput], rfl, by simp⟩⟩
    · rcases hr2 : (monitorLoop (env.startTime + env.timeout)
          (env.startTime + 60) 60 env.obs).2 with ⟨c2, t2⟩
      have htr : agentRun env = (AgentEvent.runSetup :: AgentEvent.downloadInput ::
          AgentEvent.stateWrite Origin.initialRunning "running" false env.runningTime ::
          ((monitorLoop (env.startTime + env.timeout) (env.startTime + 60) 60 env.obs).1
            ++ cleanup c2 t2 env.cleanupTime env.dropletId), (c2, t2)) := by
        simp [agentRun, hg, hsetup, hinput, hr2]
      rw [htr]
      have h0 : (monitorLoop (env.startTime + env.timeout)
          (env.startTime + 60) 60 env.obs).1.count AgentEvent.cleanupRun = 0 :=
        List.count_eq_zero.mpr
          (monitorLoop_no_cleanupRun (env.startTime + env.timeout) 60 env.obs
            (env.startTime + 60))
      constructor
      · simp [List.count_cons, List.count_append, h0, cleanup_count]
      · intro hc ht
        have hc2 : c2 = false := hc
        have ht2 : t2 = false := ht
        subst hc2; subst ht2
        refine ⟨AgentEvent.runSetup :: AgentEvent.downloadInput ::
            AgentEvent.stateWrite Origin.initialRunning "running" false env.runningTime ::
            (monitorLoop (env.startTime + env.timeout)
              (env.startTime + 60) 60 env.obs).1, rfl, ?_⟩
        intro hmem
        rcases List.mem_cons.mp hmem with h | h
        · exact AgentEvent.noConfusion h
        rcases List.mem_cons.mp h with h | h
        · exact AgentEvent.noConfusion h
        rcases List.mem_cons.mp h with h | h
        · exact AgentEvent.noConfusion h
        · exact monitorLoop_no_cleanupRun (env.startTime + env.timeout) 60 env.obs
            (env.startTime + 60) h

/-- Witness for C8: a run interrupted before either race arm fires
publishes `failed` inside a single cleanup block ending in self-delete. -/
theorem c8_witness :
    ((agentRun envSignalled).1.count AgentEvent.cleanupRun = 1) ∧
    (∃ pre, (agentRun envSignalled).1 = pre ++
        [AgentEvent.cleanupRun,
         AgentEvent.stateWrite Origin.cleanupArm "failed" false 25,
         AgentEvent.uploadOutput, AgentEvent.uploadLogs,
         AgentEvent.selfDelete "droplet-7"] ∧
      AgentEvent.cleanupRun ∉ pre) :=
  ⟨(c8_cleanup_exactly_once_and_ordered envSignalled false "cloudexec-alice" rfl).1,
   (c8_cleanup_exactly_once_and_ordered envSignalled false "cloudexec-alice" rfl).2 rfl rfl⟩

/-- The stamped-time list of a trace is non-empty exactly when the trace
holds a write made with the completed flag set. -/
theorem stampedTimes_ne_nil (evs : List AgentEvent) :
    stampedTimes evs ≠ [] ↔ ∃ o s t, AgentEvent.stateWrite o s true t ∈ evs := by
  constructor
  · intro hne
    by_contra hno
    push_neg at hno
    apply hne
    rw [stampedTimes, List.filterMap_eq_nil_iff]
    intro a ha
    cases a with
    | stateWrite o s fl t =>
      cases fl
      · rfl
      · exact absurd ha (hno o s t)
    | runSetup => rfl
    | downloadInput => rfl
    | uploadOutput => rfl
    | uploadLogs => rfl
    | cleanupRun => rfl
    | selfDelete id => rfl
  · rintro ⟨o, s, t, hmem⟩ hnil
    rw [stampedTimes, List.filterMap_eq_nil_iff] at hnil
    have h2 := hnil _ hmem
    simp [stampedTime] at h2

/-- Folding last-write-wins over a non-empty list of stamps yields a
stamp. -/
theorem foldl_some_of_ne_nil (l : List Int) :
    l ≠ [] → ∀ init : Option Int, ∃ t, l.foldl (fun _ x => some x) init = some t := by
  induction l with
  | nil => intro h; cases h rfl
  | cons a as ih =>
    intro _ init
    by_cases has : as = []
    · subst has; exact ⟨a, rfl⟩
    · rcases ih has (some a) with ⟨t2, ht2⟩
      exact ⟨t2, by simpa [List.foldl_cons] using ht2⟩

/-- Replaying a trace on a document: the matched record keeps its
position and its `completed_at` becomes the last stamped time of the
trace (or stays as it was when the trace stamps nothing). -/
theorem applyWrites_completedAt (jid : Int) (evs : List AgentEvent) :
    ∀ (doc : StateDoc) (i : Nat) (h : i < doc.jobs.length),
      (doc.jobs.get ⟨i, h⟩).id = jid →
      ∃ h2 : i < (applyWrites jid doc evs).jobs.length,
        ((applyWrites jid doc evs).jobs.get ⟨i, h2⟩).completed_at =
          (stampedTimes evs).foldl (fun _ x => some x)
            ((doc.jobs.get ⟨i, h⟩).completed_at) := by
  induction evs with
  | nil =>
    intro doc i h hid
    exact ⟨h, rfl⟩
  | cons e rest ih =>
    intro doc i h hid
    cases e with
    | stateWrite o s f t =>
      have h2 : i < (update_state doc jid s t f).jobs.length := by
        rw [update_state_length]; exact h
      have hrec : (update_state doc jid s t f).jobs.get ⟨i, h2⟩ =
          { doc.jobs.get ⟨i, h⟩ with
            status := s
            updated_at := t
            completed_at :=
              if f then some t else (doc.jobs.get ⟨i, h⟩).completed_at } := by
        rw [update_state_get doc jid s t f i h h2,
          updateJobRecord_matched jid s t f _ hid]
      have hid2 : ((update_state doc jid s t f).jobs.get ⟨i, h2⟩).id = jid := by
        rw [hrec]; exact hid
      rcases ih (update_state doc jid s t f) i h2 hid2 with ⟨h3, hfold⟩
      refine ⟨h3, ?_⟩
      show ((applyWrites jid (update_state doc jid s t f) rest).jobs.get ⟨i, h3⟩).completed_at
          = (stampedTimes (AgentEvent.stateWrite o s f t :: rest)).foldl (fun _ x => some x)
            ((doc.jobs.get ⟨i, h⟩).completed_at)
      rw [hfold, hrec]
      cases f
      · rfl
      · rfl
    | runSetup => exact ih doc i h hid
    | downloadInput => exact ih doc i h hid
    | uploadOutput => exact ih doc i h hid
    | uploadLogs => exact ih doc i h hid
    | cleanupRun => exact ih doc i h hid
    | selfDelete id => exact ih doc i h hid

/-- C3: replaying an agent run on a document whose matching record has no
`completed_at` yet, the field ends up set exactly when the run made an
exit-code-driven transition (the exit arm of the race, which covers both
`completed` and exit-code-driven `failed`); `running`, `timedout` and the
cleanup `failed` write never set it. -/
theorem c3_completed_at_iff_exit_driven (env : AgentRunEnv) (doc : StateDoc)
    (jid : Int) (i : Nat) (h : i < doc.jobs.length)
    (hid : (doc.jobs.get ⟨i, h⟩).id = jid)
    (hnone : (doc.jobs.get ⟨i, h⟩).completed_at = none) :
    ∃ h2 : i < (applyWrites jid doc (agentRun env).1).jobs.length,
      (((applyWrites jid doc (agentRun env).1).jobs.get ⟨i, h2⟩).completed_at ≠ none ↔
        ∃ s t, AgentEvent.stateWrite Origin.exitArm s true t ∈ (agentRun env).1) := by
  rcases applyWrites_completedAt jid (agentRun env).1 doc i h hid with ⟨h2, hfold⟩
  refine ⟨h2, ?_⟩
  rw [hfold, hnone]
  constructor
  · intro hne
    have hl : stampedTimes (agentRun env).1 ≠ [] := by
      intro hnil
      rw [hnil] at hne
      exact hne rfl
    rcases (stampedTimes_ne_nil (agentRun env).1).mp hl with ⟨o, s, t, hmem⟩
    have ho : o = Origin.exitArm := (agentRun_write_flag env o s true t hmem).mp rfl
    rw [ho] at hmem
    exact ⟨s, t, hmem⟩
  · rintro ⟨s, t, hmem⟩
    have hl : stampedTimes (agentRun env).1 ≠ [] :=
      (stampedTimes_ne_nil (agentRun env).1).mpr ⟨Origin.exitArm, s, t, hmem⟩
    rcases foldl_some_of_ne_nil (stampedTimes (agentRun env).1) hl none with ⟨t2, ht2⟩
    rw [ht2]
    simp

/-- Witness for C3 at a run whose workload exits 0 on the second poll. -/
theorem c3_witness :
    ∃ h2 : 0 < (applyWrites 42 sampleDoc (agentRun envCompletes).1).jobs.length,
      (((applyWrites 42 sampleDoc (agentRun envCompletes).1).jobs.get
          ⟨0, h2⟩).completed_at ≠ none ↔
        ∃ s t, AgentEvent.stateWrite Origin.exitArm s true t ∈ (agentRun envCompletes).1) :=
  c3_completed_at_iff_exit_driven envCompletes sampleDoc 42 0 (by decide) (by decide)
    (by decide)

end GuardianExec
